import Mathlib

/-!
Verification development for the forwardemail webmail local-first
synchronization and cache engine.

The repository snapshot contains the architecture documentation
(`docs/*.md`, the service-worker/offline-patterns and cache-indexing
references) and unit/e2e tests, but the implementation files they point to
(`src/stores/mailboxStore.ts`, `src/stores/mailboxActions.ts`,
`src/workers/sync.worker.ts`, `src/utils/mutation-queue.js`,
`src/utils/cache-manager.js`, `src/utils/remote.js`) are not present.
Those components are therefore modelled from the specification, faithful to
its words; the polling inbox updater (`createPollingUpdater`) IS present in
the snapshot and is embedded directly from its source.
-/

namespace Webmail

/-! ### Polling inbox updater (embedded from the source of `createPollingUpdater`) -/

/-- Environment observed by one polling tick: the document visibility state,
`navigator.onLine`, the currently selected folder in the mailbox store, and
the `path` fields of the folders currently in the store. -/
structure TickEnv where
  visibilityState : String
  onLine : Bool
  selectedFolder : String
  folderPaths : List String
deriving Repr, DecidableEq

/-- Closure state of `createPollingUpdater`: `timer` (whether the interval
timer is active; `null` in the source becomes `false`) and `destroyed`. -/
structure UpdaterState where
  timerActive : Bool
  destroyed : Bool
deriving Repr, DecidableEq

/-- Initial closure state: `let timer = null; let destroyed = false`. -/
def initialUpdater : UpdaterState := ⟨false, false⟩

/-- The guard chain of `tick`: it returns early unless
`document.visibilityState === 'visible'`, `navigator.onLine`, and the
selected folder is exactly the string `INBOX`; it then calls
`startInitialSync` only when some folder has `path.toUpperCase() === 'INBOX'`. -/
def tickInitiatesSync (env : TickEnv) : Bool :=
  env.visibilityState == "visible" && env.onLine
    && env.selectedFolder == "INBOX"
    && env.folderPaths.any (fun p => p.toUpper == "INBOX")

/-- The externally visible operations of the updater, plus the firing of the
interval timer (a `tick` carries the environment it observes). -/
inductive UpdaterEvent where
  | start
  | stop
  | destroy
  | tick (env : TickEnv)
deriving Repr, DecidableEq

/-- One event step. Returns the next closure state and whether this event
initiated a sync (`startInitialSync` was called).
`start` is a no-op when `destroyed || timer`; `stop` clears the timer;
`destroy` is `stop` followed by `destroyed = true`; a `tick` only runs while
the interval timer is active and initiates a sync per `tickInitiatesSync`. -/
def stepUpdater (s : UpdaterState) : UpdaterEvent → UpdaterState × Bool
  | .start =>
      (if s.destroyed || s.timerActive then s else { s with timerActive := true }, false)
  | .stop => ({ s with timerActive := false }, false)
  | .destroy => ({ timerActive := false, destroyed := true }, false)
  | .tick env => (s, s.timerActive && tickInitiatesSync env)

/-- Run a sequence of events, counting how many of them initiated a sync. -/
def runUpdater (s : UpdaterState) : List UpdaterEvent → UpdaterState × Nat
  | [] => (s, 0)
  | e :: es =>
      let p := stepUpdater s e
      let q := runUpdater p.1 es
      (q.1, (if p.2 then 1 else 0) + q.2)

/-! ### Cache Front generation counter

Modelled from the spec: `src/stores/mailboxActions.ts` / `mailboxStore.ts`
(the `loadGeneration` counter and the Phase-7 stale check of `loadMessages`)
are not in the repository snapshot. Per the spec, every read captures the
generation at issue time; on completion the captured value is compared to the
current one; only equality may mutate caller-visible state, and a stale
response is still persisted to the Primary Store for cache warmth. -/

/-- Caller-visible and durable state seen by the Cache Front: the current
generation of the selection scope, the UI-visible message list, and the
Primary Store contents (message ids persisted for the folder). -/
structure CacheFrontState where
  generation : Nat
  uiMessages : List Nat
  store : List Nat
deriving Repr, DecidableEq

/-- A pending asynchronous read: it records the generation captured at issue
time. -/
structure ReadRequest where
  capturedGen : Nat
deriving Repr, DecidableEq

/-- Modelled from the spec: issuing a read captures the generation value of
the selection scope at issue time. -/
def issueRead (s : CacheFrontState) : ReadRequest :=
  ⟨s.generation⟩

/-- Modelled from the spec: a selection change (folder/account switch) bumps
the monotonically increasing generation counter. -/
def selectScope (s : CacheFrontState) : CacheFrontState :=
  { s with generation := s.generation + 1 }

/-- Write-through of a network response to the Primary Store (`bulkPut`):
every id of the response is persisted, existing ids are not duplicated. -/
def persistResponse (store : List Nat) (resp : List Nat) : List Nat :=
  store.filter (fun i => !(resp.contains i)) ++ resp

/-- Modelled from the spec: completion handler of an asynchronous read. The
response is always persisted to the Primary Store; the UI-visible list is
updated only when the captured generation equals the current generation, and
is left untouched otherwise (`StaleResponseDiscarded`). -/
def completeRead (s : CacheFrontState) (req : ReadRequest) (resp : List Nat) :
    CacheFrontState :=
  let persisted := { s with store := persistResponse s.store resp }
  if req.capturedGen == s.generation then
    { persisted with uiMessages := resp }
  else
    persisted

/-! ### Sync Orchestrator: stale pruning on the first page of a full resync

Modelled from the spec: `src/workers/sync.worker.ts` / the `loadMessages`
page-1 cache-prune branch are not in the repository snapshot. Per the spec,
on the first page of a full resync the orchestrator deletes exactly the
locally stored ids of that (account, folder) that are absent from the server
response and not pending in the Mutation Queue as deletes/moves; later pages
are never pruned. -/

/-- A stored message row, keyed by (account, id) and carrying its folder. -/
structure StoredMsg where
  account : String
  folder : String
  id : Nat
deriving Repr, DecidableEq

/-- The mutation operations recorded in the queue (`toggleRead`,
`toggleStar`, `setLabels`, `move`, `delete` in the docs); the replayed
payloads are absolute values, which is what a `PUT`/`DELETE` replay sends. -/
inductive MutOp where
  | setRead (v : Bool)
  | setStarred (v : Bool)
  | setLabels (ls : List String)
  | move (dest : String)
  | del
deriving Repr, DecidableEq

/-- A Mutation Queue entry: strictly increasing sequence number per account,
target message id, operation, and retry bookkeeping. -/
structure QueueEntry where
  seq : Nat
  account : String
  target : Nat
  op : MutOp
  attempts : Nat
deriving Repr, DecidableEq

/-- Whether the queue holds a pending delete or move for (account, id); such
ids are protected from stale pruning. -/
def isPendingDeleteOrMove (q : List QueueEntry) (account : String) (i : Nat) : Bool :=
  q.any fun e =>
    e.account == account && e.target == i
      && (match e.op with
          | .del => true
          | .move _ => true
          | _ => false)

/-- Modelled from the spec: stale pruning. On the first page of a full
resync, delete every stored row of (account, folder) whose id is absent from
the server response and not protected by a pending delete/move; on any other
page the store is untouched. -/
def pruneStale (store : List StoredMsg) (q : List QueueEntry)
    (account folder : String) (serverIds : List Nat) (firstFullPage : Bool) :
    List StoredMsg :=
  if firstFullPage then
    store.filter fun m =>
      !(m.account == account && m.folder == folder
        && !(serverIds.contains m.id)
        && !(isPendingDeleteOrMove q account m.id))
  else store

/-- `bulkPut` of the normalized server batch for (account, folder): existing
rows with those ids are replaced, new ids are inserted. -/
def bulkPutIds (store : List StoredMsg) (account folder : String)
    (ids : List Nat) : List StoredMsg :=
  store.filter
      (fun m => !(m.account == account && m.folder == folder && ids.contains m.id))
    ++ ids.map (fun i => ⟨account, folder, i⟩)

/-- Modelled from the spec: processing one sync page = stale pruning (first
full page only) followed by `bulkPut` of the server batch. -/
def applySyncPage (store : List StoredMsg) (q : List QueueEntry)
    (account folder : String) (serverIds : List Nat) (firstFullPage : Bool) :
    List StoredMsg :=
  bulkPutIds (pruneStale store q account folder serverIds firstFullPage)
    account folder serverIds

/-- The ids held by the store for one (account, folder). -/
def idsFor (store : List StoredMsg) (account folder : String) : List Nat :=
  (store.filter (fun m => m.account == account && m.folder == folder)).map (·.id)

/-! ### Mutation Queue: drain ordering under permanent failure

Modelled from the spec: `src/utils/mutation-queue.js` is not in the
repository snapshot. Per the spec, entries are processed strictly in
sequence order; a permanent failure marks the entry failed and holds every
later entry addressing the same target, while entries addressing other
targets continue draining. -/

/-- Outcome of the remote operation for a queue entry during one drain. -/
inductive RemoteResult where
  | success
  | alreadyApplied
  | transient
  | permanentFailure
deriving Repr, DecidableEq

/-- Drain bookkeeping: targets held by a permanent failure, and the sequence
numbers of the entries actually executed, in execution order. -/
structure DrainState where
  blocked : List Nat
  executed : List Nat
deriving Repr, DecidableEq

/-- Modelled from the spec: one drain step. An entry whose target is held by
an earlier permanent failure is skipped (kept queued, not executed); any
other entry executes, and a permanent failure adds its target to the held
set. `outcome` gives the remote result of each entry by sequence number. -/
def drainStep (outcome : Nat → RemoteResult) (st : DrainState) (e : QueueEntry) :
    DrainState :=
  if st.blocked.contains e.target then st
  else
    let ex := st.executed ++ [e.seq]
    match outcome e.seq with
    | .permanentFailure => { blocked := e.target :: st.blocked, executed := ex }
    | _ => { st with executed := ex }

/-- Modelled from the spec: drain the queue strictly in sequence order. -/
def drainQueue (outcome : Nat → RemoteResult) (q : List QueueEntry) : DrainState :=
  q.foldl (drainStep outcome) ⟨[], []⟩

/-! ### Mutation replay: local application and idempotence

Modelled from the spec: the replay path of `src/utils/mutation-queue.js` /
`public/sw-sync.js` is not in the repository snapshot. Replay applies the
entry payload to the stored MessageRecord (absolute flag/label/folder
values; delete removes the row). -/

/-- The canonical MessageRecord shape the claims need: flags, label set,
folder, and the sender display name / labels that a delta response may omit. -/
structure MessageRecord where
  id : Nat
  isRead : Bool
  isStarred : Bool
  labels : List String
  folder : String
deriving Repr, DecidableEq

/-- Apply one mutation operation to one record (the record keeps its id). -/
def applyOp (op : MutOp) (r : MessageRecord) : MessageRecord :=
  match op with
  | .setRead v => { r with isRead := v }
  | .setStarred v => { r with isStarred := v }
  | .setLabels ls => { r with labels := ls }
  | .move dest => { r with folder := dest }
  | .del => r

/-- Modelled from the spec: replaying a queue entry against the local store.
Non-delete operations update the row with the entry's target id in place;
`del` removes it. -/
def applyReplay (s : List MessageRecord) (e : QueueEntry) : List MessageRecord :=
  match e.op with
  | .del => s.filter (fun r => !(r.id == e.target))
  | op => s.map (fun r => if r.id == e.target then applyOp op r else r)

/-- Modelled from the spec: resolving a drained entry. Success — including
an idempotent already-applied response such as target-not-found — removes
the entry; any failure retains it for retry. -/
def resolveEntry (q : List QueueEntry) (seq : Nat) (res : RemoteResult) :
    List QueueEntry :=
  match res with
  | .success => q.filter (fun e => !(e.seq == seq))
  | .alreadyApplied => q.filter (fun e => !(e.seq == seq))
  | _ => q

/-! ### Delta normalization: merge-missing-fields

Modelled from the spec: `mergeMissingLabels` / `mergeMissingFrom` of
`src/stores/mailboxStore.ts` are not in the repository snapshot. A delta
response may omit the label set or return a blank/abbreviated sender display
name; the merge keeps the currently-stored value for every omitted field. -/

/-- A fetched delta record: fields the list endpoint may omit are optional. -/
structure DeltaRecord where
  id : Nat
  subject : String
  labels : Option (List String)
  fromName : Option String
deriving Repr, DecidableEq

/-- The stored shape a delta merges into. -/
structure StoredRecord where
  id : Nat
  subject : String
  labels : List String
  fromName : String
deriving Repr, DecidableEq

/-- Modelled from the spec: merge a delta with the currently-stored record.
An omitted label set keeps the stored labels; an omitted or blank sender
display name keeps the stored one; fields the delta provides win. -/
def mergeDelta (stored : Option StoredRecord) (d : DeltaRecord) : StoredRecord :=
  { id := d.id
    subject := d.subject
    labels :=
      match d.labels with
      | some ls => ls
      | none =>
          match stored with
          | some r => r.labels
          | none => []
    fromName :=
      match d.fromName with
      | some nm =>
          if nm = "" then
            match stored with
            | some r => r.fromName
            | none => nm
          else nm
      | none =>
          match stored with
          | some r => r.fromName
          | none => "" }

/-! ### SyncManifest cursor

Modelled from the spec: the manifest bookkeeping of
`src/workers/sync.worker.ts` is not in the repository snapshot. The cursor
is an opaque monotone position (modelled as how far the folder has been
synchronized); it advances only after persist, prune and index-forwarding
all succeed, and only an explicit full resync resets it. -/

/-- Per (account, folder) sync manifest: cursor position and pages fetched. -/
structure SyncManifest where
  cursor : Nat
  pagesFetched : Nat
deriving Repr, DecidableEq

/-- Outcome of one sync window: the fetch itself and each of spec steps 3–5
(persist via bulkPut, stale pruning, forwarding to the Search Indexer) may
fail. -/
structure SyncStepOutcome where
  fetchOk : Bool
  persistOk : Bool
  pruneOk : Bool
  indexOk : Bool
deriving Repr, DecidableEq

/-- Modelled from the spec: one sync window against the manifest. The cursor
advances past the `fetched` records and `pagesFetched` increments only when
the fetch and steps 3–5 all succeed; any failure leaves the manifest
unchanged so the next attempt retries the same window. -/
def syncStep (m : SyncManifest) (fetched : Nat) (o : SyncStepOutcome) :
    SyncManifest :=
  if o.fetchOk && o.persistOk && o.pruneOk && o.indexOk then
    { cursor := m.cursor + fetched, pagesFetched := m.pagesFetched + 1 }
  else m

/-- Modelled from the spec: an explicit full resync is the one operation
allowed to roll the manifest back (empty cursor = full resync from scratch). -/
def fullResync : SyncManifest :=
  { cursor := 0, pagesFetched := 0 }

/-! ### Eviction Manager

Modelled from the spec: `src/utils/cache-manager.js` is not in the
repository snapshot. Under quota pressure the manager evicts whole payload
categories in fixed priority order — attachment blobs, then search-index
payload, then message bodies — and stops; metadata, settings, folders and
sync manifests are never auto-evicted. -/

/-- The stored payload categories the eviction policy ranges over. -/
inductive StoreCategory where
  | attachmentBlobs
  | searchIndexPayload
  | messageBodies
  | messageMetadata
  | settings
  | folders
  | syncManifests
deriving Repr, DecidableEq

/-- Bytes used per category (`navigator.storage.estimate()` bookkeeping). -/
structure StorageUsage where
  attachmentBlobs : Nat
  searchIndexPayload : Nat
  messageBodies : Nat
  messageMetadata : Nat
  settings : Nat
  folders : Nat
  syncManifests : Nat
deriving Repr, DecidableEq

/-- Total bytes used. -/
def totalUsage (u : StorageUsage) : Nat :=
  u.attachmentBlobs + u.searchIndexPayload + u.messageBodies
    + u.messageMetadata + u.settings + u.folders + u.syncManifests

/-- Drop one category's payload. -/
def clearCategory (u : StorageUsage) : StoreCategory → StorageUsage
  | .attachmentBlobs => { u with attachmentBlobs := 0 }
  | .searchIndexPayload => { u with searchIndexPayload := 0 }
  | .messageBodies => { u with messageBodies := 0 }
  | .messageMetadata => { u with messageMetadata := 0 }
  | .settings => { u with settings := 0 }
  | .folders => { u with folders := 0 }
  | .syncManifests => { u with syncManifests := 0 }

/-- The fixed eviction priority order; categories not listed are never
auto-evicted. -/
def evictionOrder : List StoreCategory :=
  [.attachmentBlobs, .searchIndexPayload, .messageBodies]

/-- Modelled from the spec: evict categories from `cats` in order while
usage still exceeds the quota threshold, then stop. Returns the resulting
usage and the categories evicted, in eviction order. -/
def evictLoop (quota : Nat) : List StoreCategory → StorageUsage →
    StorageUsage × List StoreCategory
  | [], u => (u, [])
  | c :: rest, u =>
      if totalUsage u ≤ quota then (u, [])
      else
        let p := evictLoop quota rest (clearCategory u c)
        (p.1, c :: p.2)

/-- Modelled from the spec: the Eviction Manager run under quota pressure. -/
def runEviction (u : StorageUsage) (quota : Nat) :
    StorageUsage × List StoreCategory :=
  evictLoop quota evictionOrder u

/-! ### Optimistic local application at enqueue time

Modelled from the spec: the optimistic-update path of
`src/utils/mutation-queue.js` / `mailboxStore.ts` is not in the repository
snapshot. An accepted mutation is applied to the Primary Store at enqueue
time, before remote confirmation; a remote failure never reverts it and only
leaves the entry queued (attempts bumped) for retry. -/

/-- Store plus durable queue, the state the Mutation Queue operates on. -/
structure OutboxState where
  store : List MessageRecord
  queue : List QueueEntry
deriving Repr, DecidableEq

/-- Modelled from the spec: accepting a mutation applies it to the Primary
Store immediately and appends the entry to the durable queue. -/
def enqueueMutation (st : OutboxState) (e : QueueEntry) : OutboxState :=
  { store := applyReplay st.store e
    queue := st.queue ++ [e] }

/-- Modelled from the spec: a failed remote delivery bumps the entry's
attempt counter and records nothing else — the optimistic local application
is never reverted. -/
def handleRemoteFailure (st : OutboxState) (seq : Nat) : OutboxState :=
  { st with
    queue := st.queue.map fun e =>
      if e.seq == seq then { e with attempts := e.attempts + 1 } else e }

/-! ### Remote fallback HTTP client: retry policy

Modelled from the spec: `src/utils/remote.js` is not in the repository
snapshot. The fallback client retries transient failures 3 times with
exponential backoff (1s, 2s, 4s, capped at 5s) and surfaces a typed error
only when attempts are exhausted; a permanent 4xx failure is surfaced
immediately and never retried. -/

/-- What one attempt of the remote call observes. -/
inductive FetchOutcome where
  | success
  | transient
  | permanent
deriving Repr, DecidableEq

/-- The typed errors surfaced to the caller. -/
inductive FetchError where
  | transientExhausted
  | permanentError
deriving Repr, DecidableEq

/-- Result of a retried fetch: outcome, number of attempts actually made,
and the backoff delays waited between attempts. -/
structure FetchRun where
  result : Except FetchError Unit
  attemptsMade : Nat
  delays : List Nat
deriving Repr

/-- Exponential backoff before retry `n` (0-based): 1s, 2s, 4s, capped 5s. -/
def backoffDelay (n : Nat) : Nat :=
  min (1000 * 2 ^ n) 5000

/-- Modelled from the spec: the retry loop. `plan k` is the outcome of
attempt number `k` (0-based). Success returns; a permanent failure is
surfaced immediately; a transient failure backs off and retries while
retries remain, and surfaces `transientExhausted` once they run out. -/
def runFetch (plan : Nat → FetchOutcome) : Nat → Nat → FetchRun
  | retriesLeft, attempt =>
      match plan attempt, retriesLeft with
      | .success, _ => ⟨.ok (), attempt + 1, []⟩
      | .permanent, _ => ⟨.error .permanentError, attempt + 1, []⟩
      | .transient, 0 => ⟨.error .transientExhausted, attempt + 1, []⟩
      | .transient, r + 1 =>
          let rest := runFetch plan r (attempt + 1)
          { rest with delays := backoffDelay attempt :: rest.delays }

/-- The fallback HTTP client's retry count (Ky: 3 retries). -/
def httpRetryCount : Nat := 3

/-- Modelled from the spec: a remote fetch through the fallback client. -/
def fetchWithRetry (plan : Nat → FetchOutcome) : FetchRun :=
  runFetch plan httpRetryCount 0

/-! ### Theorems -/

/-- Once the updater is destroyed (and its timer cleared), no later event
sequence ever initiates a sync: `start` refuses to recreate the timer, and
a `tick` fires only while the timer is active. -/
theorem runUpdater_dead (tr : List UpdaterEvent) :
    ∀ s : UpdaterState, s.destroyed = true → s.timerActive = false →
      (runUpdater s tr).2 = 0 := by
  induction tr with
  | nil => intro s _ _; rfl
  | cons e es ih =>
      intro s hd ht
      have h1 : (stepUpdater s e).1.destroyed = true := by
        cases e <;> simp [stepUpdater, hd, ht]
      have h2 : (stepUpdater s e).1.timerActive = false := by
        cases e <;> simp [stepUpdater, hd, ht]
      have h3 : (stepUpdater s e).2 = false := by
        cases e <;> simp [stepUpdater, hd, ht]
      simp only [runUpdater, h3]
      simpa using ih _ h1 h2

/-- C10: the polling inbox updater never initiates a sync when the document
is not visible, the browser is offline, or the selected folder is not
`INBOX`; `start()` while a timer is active or after `destroy()` is a no-op
that creates no timer; and after `destroy()` no event sequence ever
initiates a sync again. -/
theorem polling_updater_guards :
    (∀ (s : UpdaterState) (env : TickEnv),
        env.visibilityState ≠ "visible" ∨ env.onLine = false ∨
          env.selectedFolder ≠ "INBOX" →
        (stepUpdater s (.tick env)).2 = false)
    ∧ (∀ s : UpdaterState, s.timerActive = true ∨ s.destroyed = true →
        stepUpdater s .start = (s, false))
    ∧ (∀ (s : UpdaterState) (tr : List UpdaterEvent),
        (runUpdater (stepUpdater s .destroy).1 tr).2 = 0) := by
  refine ⟨?_, ?_, ?_⟩
  · intro s env h
    have hsync : tickInitiatesSync env = false := by
      rcases h with h | h | h
      · simp [tickInitiatesSync, h]
      · simp [tickInitiatesSync, h]
      · simp [tickInitiatesSync, h]
    simp [stepUpdater, hsync]
  · intro s h
    rcases h with h | h
    · simp [stepUpdater, h]
    · simp [stepUpdater, h]
  · intro s tr
    exact runUpdater_dead tr _ rfl rfl

/-- C10 witness: a hidden-tab tick with an active timer fires no sync, and
`start()` on an already-running updater changes nothing. -/
theorem polling_updater_guards_witness :
    (stepUpdater ⟨true, false⟩ (.tick ⟨"hidden", true, "INBOX", ["INBOX"]⟩)).2 = false
    ∧ stepUpdater ⟨true, false⟩ .start = (⟨true, false⟩, false) :=
  ⟨polling_updater_guards.1 ⟨true, false⟩ ⟨"hidden", true, "INBOX", ["INBOX"]⟩
      (Or.inl (by decide)),
   polling_updater_guards.2.1 ⟨true, false⟩ (Or.inl rfl)⟩

/-- C1: an asynchronous read captures the generation of its selection scope
at issue time; a completion whose captured generation differs from the
current one never mutates the UI-visible list yet is still persisted to the
Primary Store, and only an equal captured generation updates the UI. -/
theorem generation_staleness :
    (∀ s : CacheFrontState, (issueRead s).capturedGen = s.generation)
    ∧ (∀ (s : CacheFrontState) (req : ReadRequest) (resp : List Nat),
        req.capturedGen ≠ s.generation →
          (completeRead s req resp).uiMessages = s.uiMessages
          ∧ ∀ i ∈ resp, i ∈ (completeRead s req resp).store)
    ∧ (∀ (s : CacheFrontState) (req : ReadRequest) (resp : List Nat),
        req.capturedGen = s.generation →
          (completeRead s req resp).uiMessages = resp
          ∧ ∀ i ∈ resp, i ∈ (completeRead s req resp).store) := by
  refine ⟨fun s => rfl, ?_, ?_⟩
  · intro s req resp h
    constructor
    · simp [completeRead, h]
    · intro i hi
      simp [completeRead, h, persistResponse]
      exact Or.inr hi
  · intro s req resp h
    constructor
    · simp [completeRead, h]
    · intro i hi
      simp [completeRead, h, persistResponse]
      exact Or.inr hi

/-- C1 witness: at current generation 2, a response captured at generation 1
is discarded from the UI but persisted, and one captured at generation 2
updates the UI. -/
theorem generation_staleness_witness :
    ((completeRead ⟨2, [9], [9]⟩ ⟨1⟩ [5]).uiMessages = [9]
      ∧ ∀ i ∈ [5], i ∈ (completeRead ⟨2, [9], [9]⟩ ⟨1⟩ [5]).store)
    ∧ ((completeRead ⟨2, [9], [9]⟩ ⟨2⟩ [5]).uiMessages = [5]
      ∧ ∀ i ∈ [5], i ∈ (completeRead ⟨2, [9], [9]⟩ ⟨2⟩ [5]).store) :=
  ⟨generation_staleness.2.1 ⟨2, [9], [9]⟩ ⟨1⟩ [5] (by decide),
   generation_staleness.2.2 ⟨2, [9], [9]⟩ ⟨2⟩ [5] rfl⟩

/-- After a first-full-page sync, an id is stored for (account, folder)
exactly when the server returned it or it was both locally stored and
protected by a pending delete/move in the Mutation Queue. -/
theorem stale_pruning_mem (store : List StoredMsg) (q : List QueueEntry)
    (a f : String) (ids : List Nat) (i : Nat) :
    i ∈ idsFor (applySyncPage store q a f ids true) a f ↔
      i ∈ ids ∨ (i ∈ idsFor store a f ∧ isPendingDeleteOrMove q a i = true) := by
  simp only [applySyncPage, pruneStale, bulkPutIds, if_true]
  simp [idsFor, List.mem_map, List.mem_filter, List.mem_append, beq_iff_eq,
        Bool.and_eq_true, List.contains]
  constructor
  · rintro (⟨m, ⟨hm, ⟨ha, hf⟩, hsv, hpend⟩, hid⟩ | ⟨m, ⟨⟨j, hj, hmk⟩, ha, hf⟩, hid⟩)
    · rcases hpend with ((h | h) | h) | h
      · exact absurd ha h
      · exact absurd hf h
      · exact Or.inl (hid ▸ h)
      · exact Or.inr ⟨⟨m, ⟨hm, ha, hf⟩, hid⟩, hid ▸ h⟩
    · subst hmk
      exact Or.inl (hid ▸ hj)
  · rintro (hi | ⟨⟨m, ⟨hm, ha, hf⟩, hid⟩, hp⟩)
    · exact Or.inr ⟨⟨a, f, i⟩, ⟨⟨i, hi, rfl⟩, rfl, rfl⟩, rfl⟩
    · by_cases hin : i ∈ ids
      · exact Or.inr ⟨⟨a, f, i⟩, ⟨⟨i, hin, rfl⟩, rfl, rfl⟩, rfl⟩
      · exact Or.inl ⟨m, ⟨hm, ⟨ha, hf⟩, Or.inr (hid ▸ hin), Or.inr (hid ▸ hp)⟩, hid⟩

/-- A first-full-page sync for (account, folder) never touches the rows of
any other (account, folder). -/
theorem stale_pruning_other (store : List StoredMsg) (q : List QueueEntry)
    (a f a' f' : String) (ids : List Nat) (i : Nat) (h : ¬(a' = a ∧ f' = f)) :
    i ∈ idsFor (applySyncPage store q a f ids true) a' f' ↔ i ∈ idsFor store a' f' := by
  have hor : ∀ m : StoredMsg, m.account = a' → m.folder = f' →
      (¬m.account = a ∨ ¬m.folder = f) := by
    intro m ha hf
    rcases not_and_or.mp h with h' | h'
    · exact Or.inl fun hh => h' (ha.symm.trans hh)
    · exact Or.inr fun hh => h' (hf.symm.trans hh)
  simp only [applySyncPage, pruneStale, bulkPutIds, if_true]
  simp [idsFor, List.mem_map, List.mem_filter, List.mem_append, beq_iff_eq,
        Bool.and_eq_true, List.contains]
  constructor
  · rintro (⟨m, ⟨hm, ⟨ha, hf⟩, _, _⟩, hid⟩ | ⟨m, ⟨⟨j, hj, hmk⟩, ha, hf⟩, hid⟩)
    · exact ⟨m, ⟨hm, ha, hf⟩, hid⟩
    · subst hmk
      simp at ha hf
      exact absurd ⟨ha.symm, hf.symm⟩ h
  · rintro ⟨m, ⟨hm, ha, hf⟩, hid⟩
    refine Or.inl ⟨m, ⟨hm, ⟨ha, hf⟩, ?_, ?_⟩, hid⟩
    · exact Or.inl (hor m ha hf)
    · exact Or.inl (Or.inl (hor m ha hf))

/-- C2: a first page of a full resync for (account, F) deletes exactly the
locally stored ids absent from the server response and not pending as
deletes/moves in the Mutation Queue, touches no other (account, folder),
prunes nothing on later pages, and on the spec's concrete instance turns a
local store {1, 2, 3, 4} with server response {1, 2, 3} and empty queue into
exactly {1, 2, 3}. -/
theorem sync_stale_pruning :
    (∀ (store : List StoredMsg) (q : List QueueEntry) (a f : String)
        (serverIds : List Nat) (i : Nat),
        i ∈ idsFor (applySyncPage store q a f serverIds true) a f ↔
          i ∈ serverIds ∨
            (i ∈ idsFor store a f ∧ isPendingDeleteOrMove q a i = true))
    ∧ (∀ (store : List StoredMsg) (q : List QueueEntry) (a f : String)
        (serverIds : List Nat) (a' f' : String) (i : Nat), ¬(a' = a ∧ f' = f) →
        (i ∈ idsFor (applySyncPage store q a f serverIds true) a' f' ↔
          i ∈ idsFor store a' f'))
    ∧ (∀ (store : List StoredMsg) (q : List QueueEntry) (a f : String)
        (serverIds : List Nat),
        pruneStale store q a f serverIds false = store)
    ∧ idsFor (applySyncPage
          [⟨"acct", "F", 1⟩, ⟨"acct", "F", 2⟩, ⟨"acct", "F", 3⟩, ⟨"acct", "F", 4⟩]
          [] "acct" "F" [1, 2, 3] true) "acct" "F" = [1, 2, 3] := by
  refine ⟨fun store q a f ids i => stale_pruning_mem store q a f ids i,
    fun store q a f ids a' f' i h => stale_pruning_other store q a f a' f' ids i h,
    fun store q a f ids => rfl, by decide⟩

/-- C2 witness: the unprotected local id 4 absent from the server response
is gone after the first full page. -/
theorem sync_stale_pruning_witness :
    4 ∉ idsFor (applySyncPage [⟨"a", "F", 4⟩] [] "a" "F" [1] true) "a" "F" :=
  fun hmem => by
    rcases (sync_stale_pruning.1 [⟨"a", "F", 4⟩] [] "a" "F" [1] 4).mp hmem with h | ⟨v, hp⟩
    · exact (by decide : ¬(4 ∈ [1])) h
    · exact (by decide : ¬(isPendingDeleteOrMove [] "a" 4 = true)) hp

/-- C3: when the second of three queued mutations against the same target
returns a permanent failure during a drain, the third against that target is
held (never executed in the drain), while the failed entry itself ran and a
queued mutation against a different target still drains. -/
theorem mutation_queue_hold (outcome : Nat → RemoteResult) (e1 e2 e3 d : QueueEntry)
    (h23 : e2.target = e3.target) (hd : d.target ≠ e2.target)
    (hs12 : e1.seq < e2.seq) (hs23 : e2.seq < e3.seq) (hs3d : e3.seq < d.seq)
    (h1 : outcome e1.seq ≠ .permanentFailure)
    (h2 : outcome e2.seq = .permanentFailure) :
    e3.seq ∉ (drainQueue outcome [e1, e2, e3, d]).executed
    ∧ e2.seq ∈ (drainQueue outcome [e1, e2, e3, d]).executed
    ∧ d.seq ∈ (drainQueue outcome [e1, e2, e3, d]).executed := by
  have hne1 : e3.seq ≠ e1.seq := Nat.ne_of_gt (lt_trans hs12 hs23)
  have hne2 : e3.seq ≠ e2.seq := Nat.ne_of_gt hs23
  have hne3 : e3.seq ≠ d.seq := Nat.ne_of_lt hs3d
  have hd3 : d.target ≠ e3.target := h23 ▸ hd
  have hexec : (drainQueue outcome [e1, e2, e3, d]).executed
      = [e1.seq, e2.seq, d.seq] := by
    rcases ho1 : outcome e1.seq with _ | _ | _ | _
    case permanentFailure => exact absurd ho1 h1
    all_goals
      rcases hod : outcome d.seq <;>
        simp [drainQueue, drainStep, ho1, h2, hod, h23, hd, hd3, List.contains]
  rw [hexec]
  refine ⟨by simp [hne1, hne2, hne3], by simp, by simp⟩

/-- C3 witness: with targets (7, 7, 7, 8) and a permanent failure on the
second entry, sequence 3 is held while 2 has run and 4 still drains. -/
theorem mutation_queue_hold_witness :
    (3 : Nat) ∉ (drainQueue (fun k => if k == 2 then RemoteResult.permanentFailure else .success)
        [⟨1, "a", 7, .setRead true, 0⟩, ⟨2, "a", 7, .del, 0⟩,
         ⟨3, "a", 7, .setStarred true, 0⟩, ⟨4, "a", 8, .del, 0⟩]).executed
    ∧ (2 : Nat) ∈ (drainQueue (fun k => if k == 2 then RemoteResult.permanentFailure else .success)
        [⟨1, "a", 7, .setRead true, 0⟩, ⟨2, "a", 7, .del, 0⟩,
         ⟨3, "a", 7, .setStarred true, 0⟩, ⟨4, "a", 8, .del, 0⟩]).executed
    ∧ (4 : Nat) ∈ (drainQueue (fun k => if k == 2 then RemoteResult.permanentFailure else .success)
        [⟨1, "a", 7, .setRead true, 0⟩, ⟨2, "a", 7, .del, 0⟩,
         ⟨3, "a", 7, .setStarred true, 0⟩, ⟨4, "a", 8, .del, 0⟩]).executed :=
  mutation_queue_hold (fun k => if k == 2 then RemoteResult.permanentFailure else .success)
    ⟨1, "a", 7, .setRead true, 0⟩ ⟨2, "a", 7, .del, 0⟩
    ⟨3, "a", 7, .setStarred true, 0⟩ ⟨4, "a", 8, .del, 0⟩
    rfl (by decide) (by decide) (by decide) (by decide) (by decide) (by decide)

/-- Applying a mutation operation never changes the record's id. -/
theorem applyOp_id (op : MutOp) (r : MessageRecord) : (applyOp op r).id = r.id := by
  cases op <;> rfl

/-- Every mutation operation is idempotent on a single record. -/
theorem applyOp_idem (op : MutOp) (r : MessageRecord) :
    applyOp op (applyOp op r) = applyOp op r := by
  cases op <;> rfl

/-- Updating the targeted record twice with the same operation equals
updating it once. -/
theorem map_update_idem (t : Nat) (op : MutOp) (s : List MessageRecord) :
    (s.map (fun r => if r.id == t then applyOp op r else r)).map
        (fun r => if r.id == t then applyOp op r else r)
      = s.map (fun r => if r.id == t then applyOp op r else r) := by
  induction s with
  | nil => rfl
  | cons r rest ih =>
      simp only [List.map_cons, ih]
      congr 1
      by_cases h : r.id = t
      · simp [h, applyOp_id, applyOp_idem]
      · simp [h]

/-- Replaying any queue entry is idempotent on the store. -/
theorem applyReplay_idem (s : List MessageRecord) (e : QueueEntry) :
    applyReplay (applyReplay s e) e = applyReplay s e := by
  cases hop : e.op with
  | del =>
      simp only [applyReplay, hop]
      rw [List.filter_filter]
      simp
  | setRead v => simp only [applyReplay, hop]; exact map_update_idem e.target (.setRead v) s
  | setStarred v => simp only [applyReplay, hop]; exact map_update_idem e.target (.setStarred v) s
  | setLabels ls => simp only [applyReplay, hop]; exact map_update_idem e.target (.setLabels ls) s
  | move dest => simp only [applyReplay, hop]; exact map_update_idem e.target (.move dest) s

/-- C4: replaying a Mutation Queue entry twice yields the same MessageRecord
store state as replaying it once, and an idempotent already-applied remote
response removes the entry exactly as a success does. -/
theorem mutation_replay_idempotent :
    (∀ (s : List MessageRecord) (e : QueueEntry),
        applyReplay (applyReplay s e) e = applyReplay s e)
    ∧ (∀ (q : List QueueEntry) (seq : Nat) (e : QueueEntry),
        e ∈ resolveEntry q seq .alreadyApplied → e.seq ≠ seq)
    ∧ (∀ (q : List QueueEntry) (seq : Nat),
        resolveEntry q seq .alreadyApplied = resolveEntry q seq .success) := by
  refine ⟨applyReplay_idem, ?_, fun q seq => rfl⟩
  intro q seq e he
  have := (List.mem_filter.mp he).2
  simpa using this

/-- C4 witness: a double replay of a delete equals a single one, and after
an already-applied response resolves entry 5 the surviving entry is not 5. -/
theorem mutation_replay_idempotent_witness :
    applyReplay (applyReplay [⟨1, false, false, [], "INBOX"⟩] ⟨5, "a", 1, .del, 0⟩)
        ⟨5, "a", 1, .del, 0⟩
      = applyReplay [⟨1, false, false, [], "INBOX"⟩] ⟨5, "a", 1, .del, 0⟩
    ∧ (6 : Nat) ≠ 5 :=
  ⟨mutation_replay_idempotent.1 [⟨1, false, false, [], "INBOX"⟩] ⟨5, "a", 1, .del, 0⟩,
   mutation_replay_idempotent.2.1 [⟨5, "a", 1, .del, 0⟩, ⟨6, "a", 2, .del, 0⟩] 5
     ⟨6, "a", 2, .del, 0⟩ (by decide)⟩

/-- C5: merging a delta with the currently-stored record keeps the stored
label set when the delta omits labels, keeps the stored sender display name
when the delta omits it or returns it blank, and takes delta-provided
labels when present. -/
theorem merge_missing_fields :
    (∀ (r : StoredRecord) (d : DeltaRecord), d.labels = none →
        (mergeDelta (some r) d).labels = r.labels)
    ∧ (∀ (r : StoredRecord) (d : DeltaRecord),
        d.fromName = none ∨ d.fromName = some "" →
        (mergeDelta (some r) d).fromName = r.fromName)
    ∧ (∀ (r : StoredRecord) (d : DeltaRecord) (ls : List String), d.labels = some ls →
        (mergeDelta (some r) d).labels = ls) := by
  refine ⟨?_, ?_, ?_⟩
  · intro r d h; simp [mergeDelta, h]
  · intro r d h
    rcases h with h | h <;> simp [mergeDelta, h]
  · intro r d ls h; simp [mergeDelta, h]

/-- C5 witness: a delta omitting both labels and sender display name keeps
the stored values. -/
theorem merge_missing_fields_witness :
    (mergeDelta (some ⟨1, "s", ["work"], "Alice Johnson"⟩) ⟨1, "s2", none, none⟩).labels
      = ["work"]
    ∧ (mergeDelta (some ⟨1, "s", ["work"], "Alice Johnson"⟩) ⟨1, "s2", none, none⟩).fromName
      = "Alice Johnson" :=
  ⟨merge_missing_fields.1 ⟨1, "s", ["work"], "Alice Johnson"⟩ ⟨1, "s2", none, none⟩ rfl,
   merge_missing_fields.2.1 ⟨1, "s", ["work"], "Alice Johnson"⟩ ⟨1, "s2", none, none⟩
     (Or.inl rfl)⟩

/-- C6: the SyncManifest is left unchanged when the fetch, persist, prune or
index-forwarding step fails; it advances (cursor past the fetched window,
page count incremented) only when all succeed; and the cursor never moves
backwards under a sync step. -/
theorem manifest_cursor_monotonic :
    (∀ (m : SyncManifest) (fetched : Nat) (o : SyncStepOutcome),
        o.fetchOk = false ∨ o.persistOk = false ∨ o.pruneOk = false ∨ o.indexOk = false →
        syncStep m fetched o = m)
    ∧ (∀ (m : SyncManifest) (fetched : Nat) (o : SyncStepOutcome),
        o.fetchOk = true → o.persistOk = true → o.pruneOk = true → o.indexOk = true →
        (syncStep m fetched o).cursor = m.cursor + fetched
          ∧ (syncStep m fetched o).pagesFetched = m.pagesFetched + 1)
    ∧ (∀ (m : SyncManifest) (fetched : Nat) (o : SyncStepOutcome),
        m.cursor ≤ (syncStep m fetched o).cursor) := by
  refine ⟨?_, ?_, ?_⟩
  · intro m fetched o h
    rcases h with h | h | h | h <;> simp [syncStep, h]
  · intro m fetched o h1 h2 h3 h4
    simp [syncStep, h1, h2, h3, h4]
  · intro m fetched o
    by_cases h : (o.fetchOk && o.persistOk && o.pruneOk && o.indexOk) = true
    · simp [syncStep, h]
    · simp [syncStep, h]

/-- C6 witness: a failed persist leaves the manifest at cursor 42, and an
all-success window advances it to 52 with one more page fetched. -/
theorem manifest_cursor_monotonic_witness :
    syncStep ⟨42, 3⟩ 10 ⟨true, false, true, true⟩ = ⟨42, 3⟩
    ∧ ((syncStep ⟨42, 3⟩ 10 ⟨true, true, true, true⟩).cursor = 52
      ∧ (syncStep ⟨42, 3⟩ 10 ⟨true, true, true, true⟩).pagesFetched = 4) :=
  ⟨manifest_cursor_monotonic.1 ⟨42, 3⟩ 10 ⟨true, false, true, true⟩ (Or.inr (Or.inl rfl)),
   manifest_cursor_monotonic.2.1 ⟨42, 3⟩ 10 ⟨true, true, true, true⟩ rfl rfl rfl rfl⟩

/-- The categories evicted by the loop form an order-respecting front of the
category list it is given. -/
theorem evictLoop_order (quota : Nat) :
    ∀ (cats : List StoreCategory) (u : StorageUsage),
      ∃ rest, cats = (evictLoop quota cats u).2 ++ rest := by
  intro cats
  induction cats with
  | nil => intro u; exact ⟨[], rfl⟩
  | cons c cs ih =>
      intro u
      by_cases h : totalUsage u ≤ quota
      · exact ⟨c :: cs, by simp [evictLoop, h]⟩
      · obtain ⟨rest, hr⟩ := ih (clearCategory u c)
        refine ⟨rest, ?_⟩
        simp only [evictLoop, if_neg h]
        exact congrArg (c :: ·) hr

/-- Evicting only payload categories leaves metadata, settings, folders and
sync manifests untouched. -/
theorem evictLoop_preserves (quota : Nat) :
    ∀ (cats : List StoreCategory) (u : StorageUsage),
      (∀ c ∈ cats, c = .attachmentBlobs ∨ c = .searchIndexPayload ∨ c = .messageBodies) →
      (evictLoop quota cats u).1.messageMetadata = u.messageMetadata
      ∧ (evictLoop quota cats u).1.settings = u.settings
      ∧ (evictLoop quota cats u).1.folders = u.folders
      ∧ (evictLoop quota cats u).1.syncManifests = u.syncManifests := by
  intro cats
  induction cats with
  | nil => intro u _; exact ⟨rfl, rfl, rfl, rfl⟩
  | cons c cs ih =>
      intro u hc
      by_cases h : totalUsage u ≤ quota
      · simp [evictLoop, h]
      · have hcs : ∀ c' ∈ cs, c' = StoreCategory.attachmentBlobs
            ∨ c' = StoreCategory.searchIndexPayload ∨ c' = StoreCategory.messageBodies :=
          fun c' hm => hc c' (List.mem_cons_of_mem _ hm)
        have hclear : (clearCategory u c).messageMetadata = u.messageMetadata
            ∧ (clearCategory u c).settings = u.settings
            ∧ (clearCategory u c).folders = u.folders
            ∧ (clearCategory u c).syncManifests = u.syncManifests := by
          rcases hc c (List.mem_cons_self c cs) with h' | h' | h' <;> subst h' <;>
            exact ⟨rfl, rfl, rfl, rfl⟩
        obtain ⟨m1, m2, m3, m4⟩ := ih (clearCategory u c) hcs
        obtain ⟨k1, k2, k3, k4⟩ := hclear
        simp only [evictLoop, if_neg h]
        exact ⟨m1.trans k1, m2.trans k2, m3.trans k3, m4.trans k4⟩

/-- C7: under quota pressure the Eviction Manager evicts in the fixed
priority order attachment blobs, then search-index payload, then message
bodies (the evicted list is always an order-respecting front of that list),
evicts nothing else, never touches metadata/settings/folders/manifests, and
does nothing when usage is already within quota. -/
theorem eviction_priority :
    (∀ (u : StorageUsage) (quota : Nat),
        ∃ rest, evictionOrder = (runEviction u quota).2 ++ rest)
    ∧ (∀ (u : StorageUsage) (quota : Nat),
        (runEviction u quota).1.messageMetadata = u.messageMetadata
        ∧ (runEviction u quota).1.settings = u.settings
        ∧ (runEviction u quota).1.folders = u.folders
        ∧ (runEviction u quota).1.syncManifests = u.syncManifests)
    ∧ (∀ (u : StorageUsage) (quota : Nat) (c : StoreCategory),
        c ∈ (runEviction u quota).2 →
          c = .attachmentBlobs ∨ c = .searchIndexPayload ∨ c = .messageBodies)
    ∧ (∀ (u : StorageUsage) (quota : Nat), totalUsage u ≤ quota →
        runEviction u quota = (u, [])) := by
  refine ⟨fun u quota => evictLoop_order quota evictionOrder u,
    fun u quota => evictLoop_preserves quota evictionOrder u (by decide), ?_, ?_⟩
  · intro u quota c hc
    obtain ⟨rest, hr⟩ := evictLoop_order quota evictionOrder u
    have : c ∈ evictionOrder := by
      rw [hr]
      exact List.mem_append_left _ hc
    simpa [evictionOrder] using this
  · intro u quota h
    simp [runEviction, evictionOrder, evictLoop, h]

/-- C7 witness: every category evicted under heavy pressure is one of the
three payload categories, and a usage within quota evicts nothing. -/
theorem eviction_priority_witness :
    (StoreCategory.attachmentBlobs = StoreCategory.attachmentBlobs
        ∨ StoreCategory.attachmentBlobs = StoreCategory.searchIndexPayload
        ∨ StoreCategory.attachmentBlobs = StoreCategory.messageBodies)
    ∧ runEviction ⟨0, 0, 0, 0, 0, 0, 0⟩ 0 = (⟨0, 0, 0, 0, 0, 0, 0⟩, []) :=
  ⟨eviction_priority.2.2.1 ⟨10, 10, 10, 1, 1, 1, 1⟩ 0 .attachmentBlobs (by decide),
   eviction_priority.2.2.2 ⟨0, 0, 0, 0, 0, 0, 0⟩ 0 (by decide)⟩

/-- Bumping one entry's attempt counter changes no entry's sequence number,
target or operation. -/
theorem queue_fields_preserved (seq : Nat) (q : List QueueEntry) :
    (q.map (fun e => if e.seq == seq then { e with attempts := e.attempts + 1 } else e)).map
        (fun e => (e.seq, e.target, e.op))
      = q.map (fun e => (e.seq, e.target, e.op)) := by
  induction q with
  | nil => rfl
  | cons e es ih =>
      simp only [List.map_cons, ih]
      congr 1
      by_cases h : e.seq = seq
      · simp [h]
      · simp [h]

/-- C8: an accepted mutation is applied to the Primary Store at enqueue time
(before any remote confirmation) and the entry is appended to the durable
queue, so a targeted record immediately reflects the change; a remote
failure leaves the store untouched and keeps every queued entry (same
sequence, target and operation) for retry. -/
theorem optimistic_local_apply :
    (∀ (st : OutboxState) (e : QueueEntry),
        (enqueueMutation st e).store = applyReplay st.store e
        ∧ (enqueueMutation st e).queue = st.queue ++ [e])
    ∧ (∀ (st : OutboxState) (e : QueueEntry) (v : Bool) (r : MessageRecord),
        e.op = .setRead v → r ∈ st.store → r.id = e.target →
          { r with isRead := v } ∈ (enqueueMutation st e).store)
    ∧ (∀ (st : OutboxState) (seq : Nat),
        (handleRemoteFailure st seq).store = st.store
        ∧ (handleRemoteFailure st seq).queue.map (fun e => (e.seq, e.target, e.op))
            = st.queue.map (fun e => (e.seq, e.target, e.op))) := by
  refine ⟨fun st e => ⟨rfl, rfl⟩, ?_, ?_⟩
  · intro st e v r hop hr hid
    simp only [enqueueMutation, applyReplay, hop]
    exact List.mem_map.mpr ⟨r, hr, by simp [hid, applyOp]⟩
  · intro st seq
    exact ⟨rfl, queue_fields_preserved seq st.queue⟩

/-- C8 witness: enqueueing a mark-as-read of message 7 makes the store hold
the read version of that record immediately. -/
theorem optimistic_local_apply_witness :
    ({ id := 7, isRead := true, isStarred := false, labels := [], folder := "INBOX" }
        : MessageRecord)
      ∈ (enqueueMutation ⟨[⟨7, false, false, [], "INBOX"⟩], []⟩
          ⟨1, "a", 7, .setRead true, 0⟩).store :=
  optimistic_local_apply.2.1 ⟨[⟨7, false, false, [], "INBOX"⟩], []⟩
    ⟨1, "a", 7, .setRead true, 0⟩ true ⟨7, false, false, [], "INBOX"⟩
    rfl (List.mem_singleton.mpr rfl) rfl

/-- C9: a permanent failure on the first attempt is surfaced immediately
after exactly one attempt with no retry; an always-transient remote is
retried with exponential backoff (1s, 2s, 4s) and surfaced as a typed error
only after the 1 + 3 bounded attempts are exhausted; and a success within
the retry budget is never surfaced as an error. -/
theorem retry_policy :
    (∀ plan : Nat → FetchOutcome, plan 0 = .permanent →
        fetchWithRetry plan = ⟨.error .permanentError, 1, []⟩)
    ∧ (∀ plan : Nat → FetchOutcome, (∀ k, plan k = .transient) →
        fetchWithRetry plan = ⟨.error .transientExhausted, 4, [1000, 2000, 4000]⟩)
    ∧ (∀ (plan : Nat → FetchOutcome) (j : Nat), j ≤ httpRetryCount →
        (∀ k, k < j → plan k = .transient) → plan j = .success →
        (fetchWithRetry plan).result = .ok ()) := by
  refine ⟨?_, ?_, ?_⟩
  · intro plan h
    simp [fetchWithRetry, httpRetryCount, runFetch, h]
  · intro plan h
    simp [fetchWithRetry, httpRetryCount, runFetch, h 0, h 1, h 2, h 3, backoffDelay]
  · intro plan j hj hbefore hsucc
    have hj3 : j ≤ 3 := hj
    interval_cases j
    · simp [fetchWithRetry, httpRetryCount, runFetch, hsucc]
    · simp [fetchWithRetry, httpRetryCount, runFetch,
        hbefore 0 (by omega), hsucc]
    · simp [fetchWithRetry, httpRetryCount, runFetch,
        hbefore 0 (by omega), hbefore 1 (by omega), hsucc]
    · simp [fetchWithRetry, httpRetryCount, runFetch,
        hbefore 0 (by omega), hbefore 1 (by omega), hbefore 2 (by omega), hsucc]

/-- C9 witness: an always-4xx remote surfaces after one attempt, an
always-transient remote surfaces after four attempts with backoff 1s, 2s,
4s, and a first-try success is not an error. -/
theorem retry_policy_witness :
    fetchWithRetry (fun _ => .permanent) = ⟨.error .permanentError, 1, []⟩
    ∧ fetchWithRetry (fun _ => .transient) = ⟨.error .transientExhausted, 4, [1000, 2000, 4000]⟩
    ∧ (fetchWithRetry (fun _ => .success)).result = .ok () :=
  ⟨retry_policy.1 (fun _ => .permanent) rfl,
   retry_policy.2.1 (fun _ => .transient) (fun _ => rfl),
   retry_policy.2.2 (fun _ => .success) 0 (Nat.zero_le _)
     (fun k hk => absurd hk (Nat.not_lt_zero k)) rfl⟩

end Webmail
